import Mathlib

/-
Verification of the llm-proxier core (authenticating reverse proxy with
streaming relay and interaction logging) against its specification.

The development shallowly embeds the proxy pipeline of
src/llm_proxier/proxy.py (authentication, upstream request construction,
the streaming generator with its finally-block logging) and, for the log
store of the sibling package, src/llm_proxy/proxy.py together with the
SQLAlchemy model of src/llm_proxy/database.py.

Bytes are modelled as natural numbers, byte strings as lists of naturals,
HTTP header maps as association lists, and the asynchronous generator
stream_wrapper as a pure function from the list of upstream chunks to the
list of yielded chunks, an ordered event trace, and the log record it
persists.
-/

/-- One byte of a request or response body. -/
abbrev Byte := Nat

/-- The Unicode replacement character U+FFFD produced by lossy decoding. -/
def replacementChar : Char := Char.ofNat 0xFFFD

/-- Whether a byte is a UTF-8 continuation byte (0x80-0xBF). -/
def isCont (b : Byte) : Bool := decide (0x80 ≤ b ∧ b ≤ 0xBF)

/-- Code point of a two-byte UTF-8 sequence. -/
def cp2 (b0 b1 : Byte) : Nat := (b0 - 0xC0) * 0x40 + (b1 - 0x80)

/-- Code point of a three-byte UTF-8 sequence. -/
def cp3 (b0 b1 b2 : Byte) : Nat :=
  (b0 - 0xE0) * 0x1000 + (b1 - 0x80) * 0x40 + (b2 - 0x80)

/-- Code point of a four-byte UTF-8 sequence. -/
def cp4 (b0 b1 b2 b3 : Byte) : Nat :=
  (b0 - 0xF0) * 0x40000 + (b1 - 0x80) * 0x1000 + (b2 - 0x80) * 0x40 + (b3 - 0x80)

/-- Whether b0 b1 form a valid two-byte UTF-8 sequence. -/
def valid2 (b0 b1 : Byte) : Bool :=
  decide (0xC2 ≤ b0 ∧ b0 ≤ 0xDF) && isCont b1

/-- Whether b0 b1 b2 form a valid three-byte UTF-8 sequence
(excluding overlong encodings and surrogates). -/
def valid3 (b0 b1 b2 : Byte) : Bool :=
  (decide (b0 = 0xE0) && decide (0xA0 ≤ b1 ∧ b1 ≤ 0xBF) ||
   decide (0xE1 ≤ b0 ∧ b0 ≤ 0xEC) && isCont b1 ||
   decide (b0 = 0xED) && decide (0x80 ≤ b1 ∧ b1 ≤ 0x9F) ||
   decide (0xEE ≤ b0 ∧ b0 ≤ 0xEF) && isCont b1) && isCont b2

/-- Whether b0 b1 b2 b3 form a valid four-byte UTF-8 sequence. -/
def valid4 (b0 b1 b2 b3 : Byte) : Bool :=
  (decide (b0 = 0xF0) && decide (0x90 ≤ b1 ∧ b1 ≤ 0xBF) ||
   decide (0xF1 ≤ b0 ∧ b0 ≤ 0xF3) && isCont b1 ||
   decide (b0 = 0xF4) && decide (0x80 ≤ b1 ∧ b1 ≤ 0x8F) && isCont b1) &&
  isCont b2 && isCont b3

/-- UTF-8 decoding with lossy substitution, embedding the semantics of
Python's bytes.decode with utf-8 codec and replace error handling as used
in stream_wrapper: every valid UTF-8 sequence decodes to its code point,
and an invalid leading byte (or a leading byte whose continuation bytes do
not complete a valid sequence) is replaced by U+FFFD, resuming at the next
byte.  The exact number of replacement characters emitted for a malformed
multi-byte run is a CPython detail approximated here by one replacement
per bogus leading byte; no theorem below depends on that granularity,
since both sides of every equation use this same decoder. -/
def utf8DecodeReplace : List Byte → List Char
  | [] => []
  | b0 :: t1 =>
    if b0 < 0x80 then Char.ofNat b0 :: utf8DecodeReplace t1
    else
      match t1 with
      | [] => [replacementChar]
      | b1 :: t2 =>
        if valid2 b0 b1 then Char.ofNat (cp2 b0 b1) :: utf8DecodeReplace t2
        else
          match t2 with
          | [] => replacementChar :: utf8DecodeReplace [b1]
          | b2 :: t3 =>
            if valid3 b0 b1 b2 then Char.ofNat (cp3 b0 b1 b2) :: utf8DecodeReplace t3
            else
              match t3 with
              | [] => replacementChar :: utf8DecodeReplace [b1, b2]
              | b3 :: t4 =>
                if valid4 b0 b1 b2 b3 then
                  Char.ofNat (cp4 b0 b1 b2 b3) :: utf8DecodeReplace t4
                else replacementChar :: utf8DecodeReplace (b1 :: b2 :: b3 :: t4)
termination_by l => l.length
decreasing_by all_goals simp_arith

/-- Strict UTF-8 validity of a byte sequence: whether bytes.decode with
the utf-8 codec and default strict error handling succeeds.  json.loads
on a bytes body performs this decode before parsing; when it fails, the
raised UnicodeDecodeError is not a json.JSONDecodeError, so the except
clause of proxy_openai does not catch it and the handler aborts before
the upstream call. -/
def utf8Valid : List Byte → Bool
  | [] => true
  | b0 :: t1 =>
    if b0 < 0x80 then utf8Valid t1
    else
      match t1 with
      | [] => false
      | b1 :: t2 =>
        if valid2 b0 b1 then utf8Valid t2
        else
          match t2 with
          | [] => false
          | b2 :: t3 =>
            if valid3 b0 b1 b2 then utf8Valid t3
            else
              match t3 with
              | [] => false
              | b3 :: t4 => if valid4 b0 b1 b2 b3 then utf8Valid t4 else false

/-- Python str.partition with a single-space separator, restricted to the
two components the authenticator uses: the text before the first space and
the text after it (empty when the string has no space). -/
def partitionSpace : List Char → List Char × List Char
  | [] => ([], [])
  | c :: rest =>
    if c = ' ' then ([], rest)
    else
      let p := partitionSpace rest
      (c :: p.1, p.2)

/-- ASCII lowercasing of a character list, embedding str.lower as applied
to the scheme token.  Python lowercases full Unicode while Char.toLower
here is ASCII-only; the two agree on whether the result equals "bearer",
since no non-ASCII character lowercases to any of the letters b, e, a, r. -/
def lowerAscii (l : List Char) : List Char := l.map Char.toLower

/-- An HTTPException raised by the proxy: status code plus detail message. -/
structure HTTPError where
  statusCode : Nat
  detail : String
deriving DecidableEq

/-- verify_api_key from src/llm_proxier/proxy.py: returns none on success
and the raised HTTPException on failure.  A missing header and an empty
header value are both caught by the falsiness test on auth_header; the
scheme is the text before the first space, compared case-insensitively
against "bearer"; the credential is the text after the first space,
compared exactly against the configured proxy API key. -/
def verify_api_key (authHeader : Option String) (proxyApiKey : String) : Option HTTPError :=
  match authHeader with
  | none => some ⟨401, "Missing Authorization Header"⟩
  | some h =>
    if h = "" then some ⟨401, "Missing Authorization Header"⟩
    else
      let p := partitionSpace h.data
      if String.mk (lowerAscii p.1) ≠ "bearer" then
        some ⟨401, "Invalid Authorization Scheme"⟩
      else if String.mk p.2 ≠ proxyApiKey then
        some ⟨401, "Invalid API Key"⟩
      else none


/-- The configuration fields of Settings (src/llm_proxy/config.py) that the
proxy pipeline reads.  UPSTREAM_API_KEY is Optional with default None; the
proxy tests it for truthiness, so the empty string behaves like None. -/
structure Settings where
  PROXY_API_KEY : String
  UPSTREAM_BASE_URL : String
  UPSTREAM_API_KEY : Option String

/-- Python str.rstrip with a slash argument: removes every trailing slash. -/
def rstripSlashes (s : List Char) : List Char :=
  (s.reverse.dropWhile (fun c => c == '/')).reverse

/-- The upstream URL computation of proxy_openai: strip trailing slashes
from the configured base URL; if the result ends with the three characters
slash-v-1, join base and subpath with a single slash, otherwise insert the
v1 segment between them. -/
def computeUpstreamUrl (baseUrl path : String) : String :=
  let b := rstripSlashes baseUrl.data
  if ("/v1".data).isSuffixOf b then
    String.mk (b ++ '/' :: path.data)
  else
    String.mk (b ++ "/v1/".data ++ path.data)


/-- The headers dict sent upstream by proxy_openai: a fixed Content-Type,
plus a bearer Authorization header only when the configured upstream API
key is truthy (present and non-empty). -/
def upstreamHeaders (upstreamApiKey : Option String) : List (String × String) :=
  [("Content-Type", "application/json")] ++
    (match upstreamApiKey with
     | some k => if k = "" then [] else [("Authorization", "Bearer " ++ k)]
     | none => [])

/-- The upstream request built by client.build_request in proxy_openai. -/
structure UpstreamRequest where
  method : String
  url : String
  headers : List (String × String)
  content : List Byte
  timeoutSeconds : Nat
deriving DecidableEq

/-- Lines 60-88 of src/llm_proxier/proxy.py: read the raw body bytes,
compute the upstream URL and headers, and build the upstream request whose
content is the unmodified body.  The opportunistic JSON parse of the body
(json.loads inside try/except) feeds only the eventual log record and does
not appear in the request. -/
def buildUpstreamRequest (s : Settings) (method path : String) (bodyBytes : List Byte) :
    UpstreamRequest :=
  { method := method
    url := computeUpstreamUrl s.UPSTREAM_BASE_URL path
    headers := upstreamHeaders s.UPSTREAM_API_KEY
    content := bodyBytes
    timeoutSeconds := 60 }

/-- The LogData dataclass of src/llm_proxier/proxy.py.  The request_body
field holds the parsed JSON when the inbound body parsed, else none; its
type is left abstract since the pipeline never inspects it. -/
structure LogData (α : Type) where
  method : String
  path : String
  request_body : Option α
  response_body : String
  status_code : Nat
  fail : Nat

/-- HTTP status code constant from src/llm_proxier/proxy.py. -/
def HTTP_STATUS_BAD_REQUEST : Nat := 400

/-- Outcome of the upstream call client.send: either a failure raised
before response headers arrive (connection error or timeout), or a
response with its status code, content type, and the chunk sequence that
aiter_bytes will deliver. -/
inductive UpstreamResult where
  | failure
  | response (statusCode : Nat) (contentType : Option String) (chunks : List (List Byte))

/-- Ordered side effects of one run of the stream_wrapper generator. -/
inductive Ev (α : Type) where
  | yieldChunk (c : List Byte)
  | closeResponse
  | closeClient
  | openSession (sid : Nat)
  | logWrite (sid : Nat) (d : LogData α)

/-- The generator loop of stream_wrapper: for each upstream chunk, append
it to the full_response accumulator and yield it.  Returns the yielded
sequence and the accumulator. -/
def streamLoop : List (List Byte) → List (List Byte) × List (List Byte)
  | [] => ([], [])
  | c :: rest =>
    let p := streamLoop rest
    (c :: p.1, c :: p.2)

/-- Modelled from the spec: llm_proxier/database.py is not under src/.
The Log Store write contract says append(method, path, request_body,
response_body, status_code, fail) stores exactly the given record and
returns its id, so a committed write appends the record to the store. -/
def logStoreAppend (store : List (LogData α)) (d : LogData α) : List (LogData α) :=
  store ++ [d]

/-- Result of one run of the stream_wrapper generator: the chunks it
yields, its ordered event trace, the LogData it hands to log_interaction,
and the records its commit leaves in the log store. -/
structure StreamRun (α : Type) where
  yielded : List (List Byte)
  events : List (Ev α)
  logData : LogData α
  records : List (LogData α)

/-- Lines 92-118 of src/llm_proxier/proxy.py: the stream_wrapper
generator.  It yields every upstream chunk while accumulating the same
chunks in full_response; in its finally block it closes the upstream
response and client, decodes the accumulated bytes with lossy UTF-8,
computes the fail flag from the captured status code, opens a fresh
session (modelled as an identifier distinct from the request's), and
writes the log record.  commitOk models whether the db.commit call
succeeds; on failure no record is stored. -/
def stream_wrapper (method path : String) (requestJson : Option α) (statusCode : Nat)
    (chunks : List (List Byte)) (reqSession : Nat) (commitOk : Bool) : StreamRun α :=
  let p := streamLoop chunks
  let responseText := String.mk (utf8DecodeReplace p.2.flatten)
  let failFlag := if HTTP_STATUS_BAD_REQUEST ≤ statusCode then 1 else 0
  let d : LogData α := ⟨method, path, requestJson, responseText, statusCode, failFlag⟩
  let sid := reqSession + 1
  { yielded := p.1
    events := p.1.map Ev.yieldChunk ++
      [Ev.closeResponse, Ev.closeClient, Ev.openSession sid, Ev.logWrite sid d]
    logData := d
    records := if commitOk then logStoreAppend [] d else [] }

/-- Outcome of one inbound request through the proxy_openai route.
decodeAborted records the path where json.loads raises an uncaught
UnicodeDecodeError on an invalid-UTF-8 body: the handler crashes (a
500-class server error) before the upstream request is built or sent, so
nothing is forwarded, no status is relayed and no record is written. -/
structure ProxyOutcome (α : Type) where
  authError : Option HTTPError
  upstreamRequest : Option UpstreamRequest
  clientStatus : Option Nat
  delivered : List (List Byte)
  records : List (LogData α)
  decodeAborted : Bool

/-- The whole route of src/llm_proxier/proxy.py 57-125: the verify_api_key
dependency gates the handler, so a rejected request reaches neither the
body read nor the upstream call and leaves no record.  Otherwise the body
is passed to json.loads, which first decodes it as strict UTF-8: an
invalid-UTF-8 body raises UnicodeDecodeError, which the except clause
(json.JSONDecodeError only) does not catch, so the handler aborts before
the upstream request is built or sent.  For a body that decodes, jsonLoads
models the parse of the decoded text, returning none on the caught
JSONDecodeError; the upstream request is then built and sent, and on
success the StreamingResponse drains stream_wrapper.  aliveFor models the
client connection: the client receives the first aliveFor yielded chunks,
and delivery of later chunks is a no-op (modelled from the spec: the
generator has no disconnect handling, so the read loop and accumulation
run to completion regardless).  commitOk models the log-store commit. -/
def proxy_openai (s : Settings) (method path : String) (authHeader : Option String)
    (bodyBytes : List Byte) (jsonLoads : List Byte → Option α) (upstream : UpstreamResult)
    (aliveFor : Nat) (commitOk : Bool) (reqSession : Nat) : ProxyOutcome α :=
  match verify_api_key authHeader s.PROXY_API_KEY with
  | some e =>
    { authError := some e, upstreamRequest := none, clientStatus := none
      delivered := [], records := [], decodeAborted := false }
  | none =>
    if utf8Valid bodyBytes then
      let requestJson := jsonLoads bodyBytes
      let req := buildUpstreamRequest s method path bodyBytes
      match upstream with
      | .failure =>
        { authError := none, upstreamRequest := some req, clientStatus := none
          delivered := [], records := [], decodeAborted := false }
      | .response status _contentType chunks =>
        let run := stream_wrapper method path requestJson status chunks reqSession commitOk
        { authError := none, upstreamRequest := some req, clientStatus := some status
          delivered := run.yielded.take aliveFor, records := run.records
          decodeAborted := false }
    else
      { authError := none, upstreamRequest := none, clientStatus := none
        delivered := [], records := [], decodeAborted := true }

/-- The mapped attribute names of the RequestLog declarative model in
src/llm_proxy/database.py: id, timestamp, method, path, request_body,
response_body, status_code.  The model defines no fail column. -/
def requestLogColumns : List String :=
  ["id", "timestamp", "method", "path", "request_body", "response_body", "status_code"]

/-- SQLAlchemy's default declarative constructor: keyword arguments are
accepted only for mapped attribute names; an unknown keyword raises
TypeError naming that keyword. -/
def declarativeInit (columns kwargs : List String) : Except String Unit :=
  match kwargs.find? (fun k => ! columns.contains k) with
  | some k => Except.error k
  | none => Except.ok ()

/-- The keyword argument names that log_interaction in
src/llm_proxy/proxy.py passes to the RequestLog constructor. -/
def logInteractionKwargs : List String :=
  ["method", "path", "request_body", "response_body", "status_code", "fail"]

/-- log_interaction from src/llm_proxy/proxy.py: construct a RequestLog
from the six keyword arguments, add it to the session and commit.  The
declarative constructor validates the keyword names against the mapped
columns, and it raises before anything is added, so the record is stored
only when validation passes. -/
def log_interaction (store : List (LogData α)) (d : LogData α) :
    Except String (List (LogData α)) :=
  match declarativeInit requestLogColumns logInteractionKwargs with
  | Except.error k => Except.error k
  | Except.ok _ => Except.ok (logStoreAppend store d)

/-- The authenticator contract as amended, stated from the spec's words:
an absent or empty header is rejected with the missing-credential message;
otherwise, when the text before the first space does not case-insensitively
equal bearer, the unsupported-scheme message; otherwise, when the text
after the first space does not exactly equal the configured key, the
invalid-credential message; otherwise the request is accepted.  All
rejections carry status 401. -/
def authSpecAmended (authHeader : Option String) (key : String) : Option HTTPError :=
  match authHeader with
  | none => some ⟨401, "Missing Authorization Header"⟩
  | some h =>
    if h.data.isEmpty then some ⟨401, "Missing Authorization Header"⟩
    else if String.mk (lowerAscii (h.data.takeWhile (fun c => c != ' '))) = "bearer" then
      if String.mk ((h.data.dropWhile (fun c => c != ' ')).drop 1) = key then none
      else some ⟨401, "Invalid API Key"⟩
    else some ⟨401, "Invalid Authorization Scheme"⟩

/-- The generator loop yields exactly the chunk sequence it accumulates:
both components of streamLoop are the upstream chunk list itself. -/
theorem streamLoop_spec (chunks : List (List Byte)) : streamLoop chunks = (chunks, chunks) := by
  induction chunks with
  | nil => rfl
  | cons c rest ih => simp [streamLoop, ih]

/-- C1: evaluation at the failing input.  An authenticated request whose
body is the single byte 0xFF is not valid UTF-8, so json.loads raises an
uncaught UnicodeDecodeError and the handler aborts before client.send:
nothing is forwarded upstream (and no record is written) even though the
upstream is responsive, contradicting the claim that a parse failure of
the body never alters what is forwarded and the spec's statement that a
malformed request body is never fatal. -/
theorem invalid_utf8_body_never_forwarded :
    (proxy_openai ⟨"k", "https://api.example.com", none⟩ "POST" "chat/completions"
        (some "Bearer k") [0xFF] (fun _ => (none : Option Unit))
        (UpstreamResult.response 200 none [[97]]) 2 true 0).upstreamRequest = none
    ∧ (proxy_openai ⟨"k", "https://api.example.com", none⟩ "POST" "chat/completions"
        (some "Bearer k") [0xFF] (fun _ => (none : Option Unit))
        (UpstreamResult.response 200 none [[97]]) 2 true 0).records = []
    ∧ (proxy_openai ⟨"k", "https://api.example.com", none⟩ "POST" "chat/completions"
        (some "Bearer k") [0xFF] (fun _ => (none : Option Unit))
        (UpstreamResult.response 200 none [[97]]) 2 true 0).decodeAborted = true :=
  ⟨rfl, rfl, rfl⟩

/-- C2: for every streamed response, the response_body handed to the log
write equals the lossy UTF-8 decoding of the concatenation of exactly the
chunks the generator yields to the client, in order. -/
theorem streamed_log_matches_yielded (α : Type) (method path : String)
    (requestJson : Option α) (statusCode : Nat) (chunks : List (List Byte))
    (reqSession : Nat) (commitOk : Bool) :
    (stream_wrapper method path requestJson statusCode chunks
        reqSession commitOk).logData.response_body
      = String.mk (utf8DecodeReplace
          ((stream_wrapper method path requestJson statusCode chunks
              reqSession commitOk).yielded.flatten)) := by
  simp [stream_wrapper, streamLoop_spec]

/-- C3: the log write of src/llm_proxy/proxy.py can never store a record:
the RequestLog model of src/llm_proxy/database.py has no fail column, so
the declarative constructor rejects the fail keyword argument and raises
TypeError before anything is added or committed. -/
theorem llm_proxy_log_write_raises (α : Type) (store : List (LogData α)) (d : LogData α) :
    log_interaction store d = Except.error "fail" := rfl

/-- C8: when the upstream call fails before response headers are received,
no log record is produced and no status is relayed to the client. -/
theorem no_log_on_pre_header_failure (α : Type) (s : Settings) (method path : String)
    (authHeader : Option String) (bodyBytes : List Byte) (jsonLoads : List Byte → Option α)
    (aliveFor : Nat) (commitOk : Bool) (reqSession : Nat) :
    (proxy_openai s method path authHeader bodyBytes jsonLoads UpstreamResult.failure
        aliveFor commitOk reqSession).records = []
    ∧ (proxy_openai s method path authHeader bodyBytes jsonLoads UpstreamResult.failure
        aliveFor commitOk reqSession).clientStatus = none := by
  unfold proxy_openai
  cases verify_api_key authHeader s.PROXY_API_KEY with
  | some e => exact ⟨rfl, rfl⟩
  | none =>
    by_cases hdec : utf8Valid bodyBytes
    · simp [hdec]
    · simp [hdec]

/-- C10: an empty configured upstream API key is treated like an absent
one, and the upstream request carries an Authorization header exactly when
the configured upstream key is present and non-empty, in which case its
value is the bearer form of that key. -/
theorem upstream_auth_header_iff_nonempty_key (k : Option String) :
    upstreamHeaders (some "") = upstreamHeaders none
    ∧ (((upstreamHeaders k).lookup "Authorization" ≠ none) ↔ ∃ s, k = some s ∧ s ≠ "")
    ∧ (∀ s, s ≠ "" →
        (upstreamHeaders (some s)).lookup "Authorization" = some ("Bearer " ++ s)) := by
  refine ⟨rfl, ?_, ?_⟩
  · cases k with
    | none => simp [upstreamHeaders, List.lookup]
    | some s =>
      by_cases hs : s = ""
      · subst hs; simp [upstreamHeaders, List.lookup]
      · simp [upstreamHeaders, List.lookup, hs]
  · intro s hs
    simp [upstreamHeaders, List.lookup, hs]

/-- C7: in every run of the streaming generator, the log write appears in
the event trace strictly after every chunk yield, it runs in a session
distinct from the request's unit of work, and a failing commit leaves the
client-visible chunk sequence unchanged. -/
theorem log_write_after_drain (α : Type) (method path : String) (requestJson : Option α)
    (statusCode : Nat) (chunks : List (List Byte)) (reqSession : Nat) :
    (∃ tl, (stream_wrapper method path requestJson statusCode chunks
          reqSession true).events
        = ((stream_wrapper method path requestJson statusCode chunks
            reqSession true).yielded.map Ev.yieldChunk) ++ tl
      ∧ (∀ c, Ev.yieldChunk c ∉ tl)
      ∧ Ev.logWrite (reqSession + 1)
          (stream_wrapper method path requestJson statusCode chunks
            reqSession true).logData ∈ tl)
    ∧ (∀ sid d, Ev.logWrite sid d ∈ (stream_wrapper method path requestJson statusCode
          chunks reqSession true).events → sid ≠ reqSession)
    ∧ (stream_wrapper method path requestJson statusCode chunks
        reqSession false).yielded
      = (stream_wrapper method path requestJson statusCode chunks
          reqSession true).yielded := by
  refine ⟨⟨_, rfl, ?_, ?_⟩, ?_, rfl⟩
  · intro c
    simp
  · simp [stream_wrapper]
  · intro sid d hmem
    simp only [stream_wrapper, List.mem_append, List.mem_map] at hmem
    rcases hmem with ⟨c, _, hc⟩ | hmem
    · exact absurd hc (by simp)
    · simp only [List.mem_cons, List.not_mem_nil, or_false] at hmem
      rcases hmem with h | h | h | h
      · exact absurd h (by simp)
      · exact absurd h (by simp)
      · exact absurd h (by simp)
      · injection h with h1 h2
        rw [h1]
        exact Nat.succ_ne_self reqSession

/-- Witness for C7: the log write of a concrete run with request session 5
uses session 6, distinct from the request's. -/
theorem log_write_after_drain_witness : (6 : Nat) ≠ 5 :=
  (log_write_after_drain Unit "POST" "chat/completions" none 200 [[104], [105]] 5).2.1 6
    (stream_wrapper "POST" "chat/completions" (none : Option Unit) 200 [[104], [105]]
      5 true).logData
    (by simp [stream_wrapper, streamLoop])

/-- partitionSpace splits a character list at its first space: the first
component is the longest space-free initial segment and the second is
everything after the first space. -/
theorem partitionSpace_eq (l : List Char) :
    partitionSpace l
      = (l.takeWhile (fun c => c != ' '), (l.dropWhile (fun c => c != ' ')).drop 1) := by
  induction l with
  | nil => rfl
  | cons c rest ih =>
    by_cases hc : c = ' '
    · subst hc
      simp [partitionSpace, List.takeWhile_cons, List.dropWhile_cons]
    · simp [partitionSpace, List.takeWhile_cons, List.dropWhile_cons, hc, ih, bne_iff_ne]

/-- C5 counterexample: for the present-but-empty Authorization header, the
scheme token is the empty string and is not bearer, so the claim predicts
the unsupported-scheme rejection; the code instead treats the falsy header
value like an absent one and rejects with the missing-credential message. -/
theorem empty_header_rejected_as_missing :
    verify_api_key (some "") "secret-key" = some ⟨401, "Missing Authorization Header"⟩
    ∧ verify_api_key (some "") "secret-key" ≠ some ⟨401, "Invalid Authorization Scheme"⟩ := by
  exact ⟨rfl, by decide⟩


/-- C5 amended: verify_api_key agrees everywhere with the amended
contract, and every rejection it produces carries status 401. -/
theorem auth_contract_amended (h : Option String) (key : String) :
    verify_api_key h key = authSpecAmended h key
    ∧ (∀ e, verify_api_key h key = some e → e.statusCode = 401) := by
  constructor
  · cases h with
    | none => rfl
    | some s =>
      simp only [verify_api_key, authSpecAmended]
      rw [partitionSpace_eq]
      by_cases hempty : s = ""
      · subst hempty; rfl
      · have hne : s.data.isEmpty = false := by
          cases hd : s.data with
          | nil => exact absurd (String.ext hd) hempty
          | cons a l => rfl
        simp only [hempty, if_false, hne, Bool.false_eq_true]
        by_cases hscheme :
            String.mk (lowerAscii (s.data.takeWhile (fun c => c != ' '))) = "bearer"
        · simp only [hscheme, ne_eq, not_true_eq_false, if_false, if_true]
          by_cases hkey : String.mk ((s.data.dropWhile (fun c => c != ' ')).drop 1) = key
          · simp [hkey]
          · simp [hkey]
        · simp [hscheme]
  · intro e he
    cases h with
    | none =>
      simp only [verify_api_key] at he
      injection he with h1
      rw [← h1]
    | some s =>
      simp only [verify_api_key] at he
      by_cases hempty : s = "" <;>
        simp only [hempty, if_true, if_false] at he
      · injection he with h1; rw [← h1]
      · split at he
        · injection he with h1; rw [← h1]
        · split at he
          · injection he with h1; rw [← h1]
          · exact absurd he (by simp)

/-- Witness for C5: the amended contract evaluated at a concrete
wrong-scheme header, with the 401 clause discharged at that input. -/
theorem auth_contract_amended_witness :
    verify_api_key (some "Basic x") "k" = authSpecAmended (some "Basic x") "k"
    ∧ (⟨401, "Invalid Authorization Scheme"⟩ : HTTPError).statusCode = 401 :=
  ⟨(auth_contract_amended (some "Basic x") "k").1,
   (auth_contract_amended (some "Basic x") "k").2 ⟨401, "Invalid Authorization Scheme"⟩
     (by decide)⟩

/-- partitionSpace splits exactly at the first space: a space-free segment
followed by a space yields that segment and everything after the space. -/
theorem partitionSpace_append_space (l r : List Char) (hl : ∀ c ∈ l, c ≠ ' ') :
    partitionSpace (l ++ ' ' :: r) = (l, r) := by
  induction l with
  | nil => simp [partitionSpace]
  | cons c cs ih =>
    have hc : c ≠ ' ' := hl c (List.mem_cons_self c cs)
    simp [partitionSpace, hc, ih (fun d hd => hl d (List.mem_cons_of_mem c hd))]

/-- C9: the credential compared against the configured key is exactly the
text after the first space (spaces included), compared case-sensitively
and exactly, while the scheme is compared case-insensitively; a bearer
header with no space yields the empty credential and, whenever the
configured key is non-empty, is rejected as an invalid key, not as
missing. -/
theorem credential_is_text_after_first_space (h key rest : String) :
    (verify_api_key (some h) key = none ↔
      h ≠ "" ∧ String.mk (lowerAscii (h.data.takeWhile (fun c => c != ' '))) = "bearer"
        ∧ String.mk ((h.data.dropWhile (fun c => c != ' ')).drop 1) = key)
    ∧ (key ≠ "" → verify_api_key (some "Bearer") key = some ⟨401, "Invalid API Key"⟩)
    ∧ verify_api_key (some ("BEARER " ++ rest)) key
        = verify_api_key (some ("bearer " ++ rest)) key := by
  refine ⟨?_, ?_, ?_⟩
  · simp only [verify_api_key]
    rw [partitionSpace_eq]
    by_cases hempty : h = ""
    · simp [hempty]
    · simp only [hempty, if_false, ne_eq, not_false_eq_true, true_and]
      by_cases hscheme :
          String.mk (lowerAscii (h.data.takeWhile (fun c => c != ' '))) = "bearer"
      · by_cases hkey : String.mk ((h.data.dropWhile (fun c => c != ' ')).drop 1) = key
        · simp [hscheme, hkey]
        · simp [hscheme, hkey]
      · simp [hscheme]
  · intro hk
    have hp : partitionSpace "Bearer".data = ("Bearer".data, []) := by decide
    simp only [verify_api_key, hp]
    have hb : String.mk (lowerAscii "Bearer".data) = "bearer" := by decide
    have hemp : String.mk ([] : List Char) ≠ key := fun hcon => hk (hcon.symm)
    simp [hb, hemp]
  · have h1 : ("BEARER " ++ rest).data = "BEARER".data ++ ' ' :: rest.data := by
      rw [String.data_append]
      have hlit : "BEARER ".data = "BEARER".data ++ [' '] := rfl
      rw [hlit, List.append_assoc]
      rfl
    have h2 : ("bearer " ++ rest).data = "bearer".data ++ ' ' :: rest.data := by
      rw [String.data_append]
      have hlit : "bearer ".data = "bearer".data ++ [' '] := rfl
      rw [hlit, List.append_assoc]
      rfl
    have hne1 : ("BEARER " ++ rest) ≠ "" := by
      intro hcon
      have hdata := congrArg String.data hcon
      rw [h1] at hdata
      simp at hdata
    have hne2 : ("bearer " ++ rest) ≠ "" := by
      intro hcon
      have hdata := congrArg String.data hcon
      rw [h2] at hdata
      simp at hdata
    simp only [verify_api_key, hne1, hne2, if_false, h1, h2,
      partitionSpace_append_space "BEARER".data rest.data (by decide),
      partitionSpace_append_space "bearer".data rest.data (by decide)]
    have hB : String.mk (lowerAscii "BEARER".data) = "bearer" := by decide
    have hb : String.mk (lowerAscii "bearer".data) = "bearer" := by decide
    simp [hB, hb]

/-- Witness for C9 at the concrete header Bearer with no space and key k:
rejected as an invalid key. -/
theorem credential_is_text_after_first_space_witness :
    verify_api_key (some "Bearer") "k" = some ⟨401, "Invalid API Key"⟩ :=
  (credential_is_text_after_first_space "Bearer" "k" "").2.1 (by decide)

/-- A pattern occurring inside an append either lies inside the right part
or starts inside the left part: some suffix of the left part, extended by
the right part, has the pattern as a prefix. -/
theorem infix_append_cases (pat xs ys : List Char) (h : pat <:+: xs ++ ys) :
    pat <:+: ys ∨ ∃ s, s <:+ xs ∧ pat <+: s ++ ys := by
  induction xs with
  | nil => left; simpa using h
  | cons x xs ih =>
    rw [List.cons_append] at h
    rcases List.infix_cons_iff.mp h with hp | hi
    · right
      exact ⟨x :: xs, List.suffix_refl _, by simpa using hp⟩
    · rcases ih hi with h1 | ⟨s, hs, hp⟩
      · left; exact h1
      · right; exact ⟨s, List.suffix_cons_iff.mpr (Or.inr hs), hp⟩

/-- A prefix of some suffix is an interior segment. -/
theorem infix_from_parts {pat s b : List Char} (h1 : pat <+: s) (h2 : s <:+ b) :
    pat <:+: b := by
  obtain ⟨t, ht⟩ := h1
  obtain ⟨u, hu⟩ := h2
  exact ⟨u, t, by rw [List.append_assoc, ht, hu]⟩

/-- A prefix is an interior segment. -/
theorem infix_from_front {pat b : List Char} (h : pat <+: b) : pat <:+: b :=
  infix_from_parts h (List.suffix_refl b)

/-- Enumeration of the prefixes of the duplicated-segment pattern. -/
theorem prefix_of_pat_cases {s : List Char} (h : s <+: ['/', 'v', '1', '/', 'v', '1']) :
    s = [] ∨ s = ['/'] ∨ s = ['/', 'v'] ∨ s = ['/', 'v', '1'] ∨ s = ['/', 'v', '1', '/']
      ∨ s = ['/', 'v', '1', '/', 'v'] ∨ s = ['/', 'v', '1', '/', 'v', '1'] := by
  rcases List.prefix_cons_iff.mp h with h0 | ⟨t1, rfl, h1⟩
  · exact Or.inl h0
  rcases List.prefix_cons_iff.mp h1 with h0 | ⟨t2, rfl, h2⟩
  · rw [h0]; simp
  rcases List.prefix_cons_iff.mp h2 with h0 | ⟨t3, rfl, h3⟩
  · rw [h0]; simp
  rcases List.prefix_cons_iff.mp h3 with h0 | ⟨t4, rfl, h4⟩
  · rw [h0]; simp
  rcases List.prefix_cons_iff.mp h4 with h0 | ⟨t5, rfl, h5⟩
  · rw [h0]; simp
  rcases List.prefix_cons_iff.mp h5 with h0 | ⟨t6, rfl, h6⟩
  · rw [h0]; simp
  rw [List.prefix_nil.mp h6]
  simp

/-- Enumeration of the suffixes of the inserted middle segment. -/
theorem suffix_of_mid_cases {s : List Char} (h : s <:+ ['/', 'v', '1', '/']) :
    s = [] ∨ s = ['/'] ∨ s = ['1', '/'] ∨ s = ['v', '1', '/'] ∨ s = ['/', 'v', '1', '/'] := by
  rcases List.suffix_cons_iff.mp h with h0 | h
  · simp [h0]
  rcases List.suffix_cons_iff.mp h with h0 | h
  · simp [h0]
  rcases List.suffix_cons_iff.mp h with h0 | h
  · simp [h0]
  rcases List.suffix_cons_iff.mp h with h0 | h
  · simp [h0]
  simp [List.suffix_nil.mp h]

/-- The result of stripping trailing slashes never ends in a slash. -/
theorem rstripSlashes_no_trailing (x : List Char) : ¬ ['/'] <:+ rstripSlashes x := by
  intro h
  obtain ⟨t, ht⟩ := h
  have hrev : (rstripSlashes x).reverse = x.reverse.dropWhile (fun c => c == '/') := by
    simp [rstripSlashes]
  rw [← ht] at hrev
  simp only [List.reverse_append, List.reverse_cons, List.reverse_nil, List.nil_append,
    List.singleton_append] at hrev
  have hhead := List.head?_dropWhile_not (fun c => c == '/') x.reverse
  rw [← hrev] at hhead
  simp at hhead

/-- No duplicated v1 segment arises when the stripped base does not end in
the v1 segment: the join inserts one v1 segment and cannot create the
pattern unless the base or subpath already contains it or the subpath
begins with v1. -/
theorem no_dup_of_not_v1_suffix (b p : List Char)
    (hb0 : ¬ ['/'] <:+ b)
    (hb1 : ¬ ['/', 'v', '1'] <:+ b)
    (hb : ¬ ['/', 'v', '1', '/', 'v', '1'] <:+: b)
    (hp1 : ¬ ['v', '1'] <+: p)
    (hp : ¬ ['/', 'v', '1', '/', 'v', '1'] <:+: p) :
    ¬ ['/', 'v', '1', '/', 'v', '1'] <:+: b ++ ['/', 'v', '1', '/'] ++ p := by
  intro h
  rw [List.append_assoc] at h
  rcases infix_append_cases _ b _ h with hmid | ⟨s, hs, hpre⟩
  · rcases infix_append_cases _ _ p hmid with hinp | ⟨s, hs, hpre⟩
    · exact hp hinp
    · rcases suffix_of_mid_cases hs with rfl | rfl | rfl | rfl | rfl
      · exact hp (infix_from_front (by simpa using hpre))
      · simp only [List.singleton_append, List.cons_prefix_cons] at hpre
        exact hp1 ((by decide : ['v', '1'] <+: ['v', '1', '/', 'v', '1']).trans hpre.2)
      · simp [List.cons_prefix_cons] at hpre
      · simp [List.cons_prefix_cons] at hpre
      · simp only [List.cons_append, List.cons_prefix_cons, true_and] at hpre
        exact hp1 hpre
  · rcases List.prefix_or_prefix_of_prefix (List.prefix_append s _) hpre with hsp | hps
    · rcases prefix_of_pat_cases hsp with rfl | rfl | rfl | rfl | rfl | rfl | rfl
      · simp only [List.nil_append, List.cons_append, List.cons_prefix_cons, true_and] at hpre
        exact hp1 hpre
      · exact hb0 hs
      · simp [List.cons_prefix_cons] at hpre
      · exact hb1 hs
      · exact hb0 ((by decide : ['/'] <:+ ['/', 'v', '1', '/']).trans hs)
      · simp [List.cons_prefix_cons] at hpre
      · exact hb (infix_from_parts (List.prefix_refl _) hs)
    · exact hb (infix_from_parts hps hs)

/-- No duplicated v1 segment arises when the stripped base already ends in
the v1 segment: the subpath is joined with a single slash. -/
theorem no_dup_of_v1_suffix (b p : List Char)
    (hbv1 : ['/', 'v', '1'] <:+ b)
    (hb : ¬ ['/', 'v', '1', '/', 'v', '1'] <:+: b)
    (hp1 : ¬ ['v', '1'] <+: p)
    (hp : ¬ ['/', 'v', '1', '/', 'v', '1'] <:+: p) :
    ¬ ['/', 'v', '1', '/', 'v', '1'] <:+: b ++ '/' :: p := by
  intro h
  have h' : ['/', 'v', '1', '/', 'v', '1'] <:+: b ++ (['/'] ++ p) := by simpa using h
  rcases infix_append_cases _ b _ h' with hmid | ⟨s, hs, hpre⟩
  · rcases infix_append_cases _ ['/'] p hmid with hinp | ⟨s, hs, hpre⟩
    · exact hp hinp
    · rcases List.suffix_cons_iff.mp hs with rfl | hnil
      · simp only [List.singleton_append, List.cons_prefix_cons, true_and] at hpre
        exact hp1 ((by decide : ['v', '1'] <+: ['v', '1', '/', 'v', '1']).trans hpre)
      · rw [List.suffix_nil.mp hnil] at hpre
        exact hp (infix_from_front (by simpa using hpre))
  · rcases List.prefix_or_prefix_of_prefix (List.prefix_append s _) hpre with hsp | hps
    · rcases prefix_of_pat_cases hsp with rfl | rfl | rfl | rfl | rfl | rfl | rfl
      · simp only [List.nil_append, List.singleton_append, List.cons_prefix_cons,
          true_and] at hpre
        exact hp1 ((by decide : ['v', '1'] <+: ['v', '1', '/', 'v', '1']).trans hpre)
      · rcases List.suffix_or_suffix_of_suffix hs hbv1 with hc | hc
        · exact absurd hc (by decide)
        · exact absurd hc (by decide)
      · rcases List.suffix_or_suffix_of_suffix hs hbv1 with hc | hc
        · exact absurd hc (by decide)
        · exact absurd hc (by decide)
      · simp only [List.cons_append, List.nil_append, List.singleton_append,
          List.cons_prefix_cons, true_and] at hpre
        exact hp1 hpre
      · rcases List.suffix_or_suffix_of_suffix hs hbv1 with hc | hc
        · exact absurd hc (by decide)
        · exact absurd hc (by decide)
      · rcases List.suffix_or_suffix_of_suffix hs hbv1 with hc | hc
        · exact absurd hc (by decide)
        · exact absurd hc (by decide)
      · exact hb (infix_from_parts (List.prefix_refl _) hs)
    · exact hb (infix_from_parts hps hs)

/-- C6 counterexample: with upstream base https://api.example.com and
subpath v1/chat/completions, the computed upstream URL contains the
duplicated segment, refuting the claim that it never does; the claim's own
join formula produces the same duplication at this input. -/
theorem computed_url_contains_duplicate :
    ['/', 'v', '1', '/', 'v', '1'] <:+:
      (computeUpstreamUrl "https://api.example.com" "v1/chat/completions").data := by
  decide

/-- C6 amended: with B the configured base URL stripped of trailing
slashes, the computed URL is B joined to the subpath with a single slash
when B ends in the v1 segment and B/v1/subpath otherwise; and it contains
no duplicated v1 segment provided the subpath does not begin with v1 and
neither the stripped base nor the subpath already contains the duplicated
segment. -/
theorem upstream_url_join_amended (base path : String) :
    ((computeUpstreamUrl base path).data
        = rstripSlashes base.data ++
            (if ("/v1".data).isSuffixOf (rstripSlashes base.data) then '/' :: path.data
             else '/' :: 'v' :: '1' :: '/' :: path.data))
    ∧ (¬ (['/', 'v', '1', '/', 'v', '1'] <:+: rstripSlashes base.data) →
        ¬ (['v', '1'] <+: path.data) →
        ¬ (['/', 'v', '1', '/', 'v', '1'] <:+: path.data) →
        ¬ (['/', 'v', '1', '/', 'v', '1'] <:+: (computeUpstreamUrl base path).data)) := by
  have hdata : (computeUpstreamUrl base path).data
      = rstripSlashes base.data ++
          (if ("/v1".data).isSuffixOf (rstripSlashes base.data) then '/' :: path.data
           else '/' :: 'v' :: '1' :: '/' :: path.data) := by
    by_cases hsuf : ("/v1".data).isSuffixOf (rstripSlashes base.data)
    · simp [computeUpstreamUrl, hsuf]
    · simp [computeUpstreamUrl, hsuf]
  refine ⟨hdata, ?_⟩
  intro hb hp1 hp
  rw [hdata]
  by_cases hsuf : ("/v1".data).isSuffixOf (rstripSlashes base.data)
  · simp only [hsuf, if_true]
    have hv1 : ['/', 'v', '1'] <:+ rstripSlashes base.data :=
      List.isSuffixOf_iff_suffix.mp hsuf
    exact no_dup_of_v1_suffix _ _ hv1 hb hp1 hp
  · simp only [hsuf, if_false, Bool.false_eq_true]
    have hb1 : ¬ ['/', 'v', '1'] <:+ rstripSlashes base.data := fun hcon =>
      hsuf (List.isSuffixOf_iff_suffix.mpr hcon)
    have hmain := no_dup_of_not_v1_suffix _ path.data
      (rstripSlashes_no_trailing base.data) hb1 hb hp1 hp
    rw [List.append_assoc] at hmain
    exact hmain

/-- Witness for C6 at a concrete base and subpath satisfying the guards:
the computed URL has no duplicated v1 segment. -/
theorem upstream_url_join_amended_witness :
    ¬ (['/', 'v', '1', '/', 'v', '1'] <:+: (computeUpstreamUrl "http://h" "chat").data) :=
  (upstream_url_join_amended "http://h" "chat").2 (by decide) (by decide) (by decide)

/-- Witness for C10: with the concrete non-empty upstream key sk-abc, the
upstream headers carry the bearer Authorization header for that key. -/
theorem upstream_auth_header_iff_nonempty_key_witness :
    (upstreamHeaders (some "sk-abc")).lookup "Authorization" = some ("Bearer " ++ "sk-abc") :=
  (upstream_auth_header_iff_nonempty_key (some "sk-abc")).2.2 "sk-abc" (by decide)
